import Mathlib

/-!
# Verification of the AIS/NMEA target-plotter ingestion pipeline

Shallow embedding of the ingestion, validation, backfill, retention and
spoof-detection logic of the two backend variants:

* namespace `Backend` embeds `src/backend/server.py` (MongoDB variant);
* namespace `Sqlite` embeds `src/backend-sqlite/server.py`.

Modelling conventions:

* Coordinates are rationals (`ℚ`); a decoded coordinate that may be
  missing is `Option ℚ` (Python `None` = `none`).
* MongoDB distinguishes an *absent* field from a field that is present
  with value `null`.  Fields for which that distinction matters in the
  code (`display_lat`, `display_lon`, `backfilled`, `is_base_station`)
  are modelled as `Option (Option _)` / `Option Bool`: the outer layer
  is field presence (`$exists`), the inner layer is the stored value.
* Timestamps are naturals drawn from a strictly increasing clock
  `DB.now` (the code uses `datetime.now`, which is monotone, and
  compares ISO strings, which is order-isomorphic).
* Documents are kept in insertion order, so a list is sorted by
  timestamp; a Mongo query sorted ascending by timestamp is a prefix of
  the filtered list and `find_one(..., sort=[('timestamp', -1)])` is its
  last element.
* `update_one`/`delete_many` keyed by the unique `source_id` (resp. the
  unique `_id`, modelled by the unique timestamp) are mapped/filtered
  over the whole list; uniqueness makes this equal to a one-document
  update.
-/

namespace Backend

/-- Result of `decode(raw_message).asdict()` restricted to the fields the
pipeline reads.  `mmsi` is already stringified (`str(decoded.get('mmsi'))`). -/
structure Decoded where
  mmsi : String
  msg_type : Nat
  lat : Option ℚ := none
  lon : Option ℚ := none
  repeat_indicator : Int := 0
deriving DecidableEq

/-- Outcome of the external decoder on one raw sentence: it can raise
(`pyais` throws on malformed input), return a falsy value, or succeed. -/
inductive DecodeOutcome where
  | exc
  | failed
  | ok (d : Decoded)
deriving DecidableEq

/-- A stored document of the `messages` collection (`message_doc`); the
opaque payload fields `raw`/`decoded`/`source` are not modelled. -/
structure Message where
  mmsi : String
  timestamp : Nat
  message_type : Nat
  source_id : Option String
  is_vdo : Bool
  repeat_indicator : Int
deriving DecidableEq

/-- A stored document of the `positions` collection (`position_doc`).
`display_lat`/`display_lon`/`backfilled`/`is_base_station` keep the
field-presence layer (see the module comment); the pipeline always
inserts `display_lat`/`display_lon` as present (possibly null) and never
inserts `backfilled` or `is_base_station`. -/
structure Position where
  mmsi : String
  timestamp : Nat := 0
  lat : Option ℚ := none
  lon : Option ℚ := none
  display_lat : Option (Option ℚ) := some none
  display_lon : Option (Option ℚ) := some none
  position_valid : Bool := false
  backfilled : Option Bool := none
  source_id : Option String := none
  is_vdo : Bool := false
  is_base_station : Option Bool := none
  repeat_indicator : Int := 0
deriving DecidableEq

/-- A stored document of the `sources` collection.  Fields read with
`.get(key, default)` in the code are `Option`-typed (absent = `none`). -/
structure Source where
  source_id : String
  source_type : String
  config_host : Option String := none
  config_port : Option Nat := none
  config_serial_port : Option String := none
  config_filename : Option String := none
  status : String := "active"
  is_paused : Option Bool := none
  message_limit : Option Nat := none
  message_count : Nat := 0
  fragment_count : Nat := 0
  last_message : Option Nat := none
  spoof_limit_km : Option ℚ := none
deriving DecidableEq

/-- The datastore state (`db`), plus the monotone clock used for
timestamps.  The `vessels` aggregate collection is not modelled: none of
the verified properties mentions it and the pipeline only upserts into
it. -/
structure DB where
  sources : List Source
  messages : List Message
  positions : List Position
  now : Nat
deriving DecidableEq

/-- `is_valid_position` (src/backend/server.py lines 277-294). -/
def is_valid_position (lat lon : Option ℚ) : Bool :=
  match lat, lon with
  | none, _ => false
  | _, none => false
  | some la, some lo =>
    if la < -90 ∨ la > 90 then false
    else if lo < -180 ∨ lo > 180 then false
    else true

/-- Value of a Mongo field of type `Option (Option ℚ)` as `.get(key)`
returns it: absent field and null field both read back as `None`. -/
def fieldVal (v : Option (Option ℚ)) : Option ℚ := v.join

/-- `get_last_valid_position` (lines 296-317): the most recent position
for the station with `position_valid = True`
(`find_one(..., sort=[('timestamp', -1)])`), read back as its
`display_lat`/`display_lon` values.  Positions are stored in timestamp
order, so the most recent match is the last one. -/
def get_last_valid_position (db : DB) (mmsi : String) : Option (Option ℚ × Option ℚ) :=
  match (db.positions.filter (fun p => p.mmsi = mmsi ∧ p.position_valid)).getLast? with
  | some last_valid => some (fieldVal last_valid.display_lat, fieldVal last_valid.display_lon)
  | none => none

/-- `backfill_invalid_positions` (lines 319-346): update every position
of the station with `position_valid = False` whose `display_lat` field
does not exist (`{'$exists': False}` — note: a field stored as null
*does* exist), setting its display coordinates and `backfilled = True`. -/
def backfill_invalid_positions (db : DB) (mmsi : String)
    (valid_lat valid_lon : Option ℚ) : DB :=
  { db with positions := db.positions.map (fun p =>
      if p.mmsi = mmsi ∧ p.position_valid = false ∧ p.display_lat = none then
        { p with display_lat := some valid_lat, display_lon := some valid_lon,
                 backfilled := some true }
      else p) }

/-- The message-limit purge inside `process_ais_message`
(lines 396-422): count the source's messages, and if the count exceeds
`message_limit` (`.get('message_limit', 500)` — no special case for 0),
delete the oldest excess messages and the positions of the same source
whose station appears among them with timestamp up to the newest deleted
message.  Messages are stored in timestamp order, so sorting ascending
and taking the excess is `List.take`; deletion by the unique `_id` is
modelled by the unique timestamp. -/
def purge_messages (db : DB) (sid : String) : DB :=
  match db.sources.find? (fun s => s.source_id = sid) with
  | none => db
  | some source_doc =>
    let message_limit := source_doc.message_limit.getD 500
    let sid_messages := db.messages.filter (fun m => m.source_id = some sid)
    let message_count := sid_messages.length
    if message_count > message_limit then
      let messages_to_delete := message_count - message_limit
      let old_messages := sid_messages.take messages_to_delete
      let old_ts := old_messages.map (fun m => m.timestamp)
      let db1 := { db with
        messages := db.messages.filter (fun m => m.timestamp ∉ old_ts) }
      let position_mmsis := old_messages.map (fun m => m.mmsi)
      match old_messages.getLast? with
      | some last_old =>
        { db1 with positions := db1.positions.filter (fun p =>
            ¬(p.source_id = some sid ∧ p.mmsi ∈ position_mmsis ∧
              p.timestamp ≤ last_old.timestamp)) }
      | none => db1
    else db

/-- The position-report handling shared verbatim by the branches for
message types 1/2/3 (lines 425-507), 4, 18 and 21 of
`process_ais_message`: validate the decoded coordinates, resolve the
display coordinates (own fix when valid, else last valid fix, else
null), insert the position document (with `display_lat`/`display_lon`
present, possibly null, and no `backfilled`/`is_base_station` field),
and, when valid, run the backfill.  The per-type extras (speed, aton
fields, …) and the `vessels` upsert/broadcast do not touch the
collections modelled here. -/
def position_branch (db : DB) (mmsi : String) (timestamp : Nat) (d : Decoded)
    (source_id : Option String) (is_vdo : Bool) : DB :=
  let original_lat := d.lat
  let original_lon := d.lon
  let position_is_valid := is_valid_position original_lat original_lon
  let disp : Option ℚ × Option ℚ :=
    if position_is_valid then (original_lat, original_lon)
    else
      match get_last_valid_position db mmsi with
      | some last_valid => last_valid
      | none => (none, none)
  let position_doc : Position :=
    { mmsi, timestamp, lat := original_lat, lon := original_lon,
      display_lat := some disp.1, display_lon := some disp.2,
      position_valid := position_is_valid, backfilled := none,
      source_id, is_vdo, is_base_station := none,
      repeat_indicator := d.repeat_indicator }
  let db1 := { db with positions := db.positions ++ [position_doc] }
  if position_is_valid then backfill_invalid_positions db1 mmsi disp.1 disp.2
  else db1

/-- Message types whose `process_ais_message` branch stores a position
document (Class A reports 1-3, base station 4, Class B 18, aid to
navigation 21). -/
def position_types : List Nat := [1, 2, 3, 4, 18, 21]

/-- Whether the pause check at the top of `process_ais_message`
(lines 351-356) drops the message: the source document exists and
`.get('is_paused', False)` is true. -/
def source_paused (db : DB) (source_id : Option String) : Bool :=
  match source_id with
  | some sid =>
    match db.sources.find? (fun s => s.source_id = sid) with
    | some source_doc => source_doc.is_paused.getD false
    | none => false
  | none => false

/-- The increment of `message_count`/`last_message` on the source at the
end of `process_ais_message` (lines 824-836; the recomputed
`target_count` lives on the unmodelled `vessels` side). -/
def bump_source_stats (db : DB) (sid : String) (timestamp : Nat) : DB :=
  { db with sources := db.sources.map (fun s =>
      if s.source_id = sid then
        { s with message_count := s.message_count + 1, last_message := some timestamp }
      else s) }

/-- The Python exceptions the embedding tracks: the external decoder
raising on a malformed sentence (`pyais` throws before any datastore
write has happened). -/
inductive PyExc where
  | decodeError
deriving DecidableEq

/-- The message-envelope insert followed by the message-limit purge
(lines 382-422): the state every type-specific branch starts from.  The
message timestamp is the clock value at entry; the clock advances. -/
def ingest_phase (d : Decoded) (is_vdo : Bool) (source_id : Option String)
    (db : DB) : DB :=
  let message_doc : Message :=
    { mmsi := d.mmsi, timestamp := db.now, message_type := d.msg_type, source_id,
      is_vdo, repeat_indicator := d.repeat_indicator }
  let db1 := { db with messages := db.messages ++ [message_doc], now := db.now + 1 }
  match source_id with
  | some sid => purge_messages db1 sid
  | none => db1

/-- The body of the `try:` block of `process_ais_message`
(lines 350-838): pause check, decode, fragment counting, message
insert, message-limit purge, type dispatch, source-stat update.  A
raised exception is an `Except.error`. -/
def process_ais_message_body (o : DecodeOutcome) (is_vdo : Bool)
    (source_id : Option String) (db : DB) : Except PyExc DB :=
  if source_paused db source_id then .ok db
  else
    match o with
    | .exc => .error .decodeError
    | .failed =>
      match source_id with
      | some sid =>
        .ok { db with sources := db.sources.map (fun s =>
          if s.source_id = sid then { s with fragment_count := s.fragment_count + 1 }
          else s) }
      | none => .ok db
    | .ok d =>
      let timestamp := db.now
      let db2 := ingest_phase d is_vdo source_id db
      let db3 :=
        if d.msg_type ∈ position_types then
          position_branch db2 d.mmsi timestamp d source_id is_vdo
        else db2
      let db4 :=
        match source_id with
        | some sid => bump_source_stats db3 sid timestamp
        | none => db3
      .ok db4

/-- `process_ais_message` (lines 348-841): the body above wrapped in
`try ... except Exception: log` — an exception is logged and swallowed,
leaving the state as it was at the raise site. -/
def process_ais_message (o : DecodeOutcome) (is_vdo : Bool)
    (source_id : Option String) (db : DB) : DB :=
  match process_ais_message_body o is_vdo source_id db with
  | .ok db1 => db1
  | .error _ => db

/-- `process_stream_message` (lines 958-967), the helper the TCP, UDP
and serial handlers route every received sentence through: process the
message, then unconditionally increment the source's `message_count`
and refresh `last_message` — there is no pause check here. -/
def process_stream_message (o : DecodeOutcome) (is_vdo : Bool) (sid : String)
    (db : DB) : DB :=
  let db1 := process_ais_message o is_vdo (some sid) db
  { db1 with sources := db1.sources.map (fun s =>
      if s.source_id = sid then
        { s with message_count := s.message_count + 1, last_message := some db1.now }
      else s) }

/-- One raw sentence as the router sees it: the decoder outcome, the
VDO flag derived from the sentence framing, and the source id. -/
structure Sentence where
  outcome : DecodeOutcome
  is_vdo : Bool
  source_id : Option String
deriving DecidableEq

/-- Sequential processing of a list of sentences (a file upload loop or
a stream read loop feeding `process_ais_message`). -/
def process_list (sentences : List Sentence) (db : DB) : DB :=
  sentences.foldl (fun acc s => process_ais_message s.outcome s.is_vdo s.source_id acc) db

/-- The request body of `POST /stream/start` (`StreamConfig`),
restricted to the fields the duplicate check and the source record
read. -/
structure StreamConfig where
  stream_type : String
  host : Option String := none
  port : Option Nat := none
  serial_port : Option String := none
deriving DecidableEq

/-- A FastAPI `HTTPException`, identified by its status code (the
`detail` string is not modelled). -/
structure HTTPException where
  status_code : Nat
deriving DecidableEq

/-- The duplicate query built by `start_stream` (lines 917-926): same
`source_type`, plus the same host/port for tcp/udp or the same device
for serial (for any other `stream_type` only `source_type` is
constrained). -/
def duplicate_stream_query (config : StreamConfig) (s : Source) : Bool :=
  s.source_type = config.stream_type ∧
    (if config.stream_type = "tcp" ∨ config.stream_type = "udp" then
      s.config_host = config.host ∧ s.config_port = config.port
    else if config.stream_type = "serial" then
      s.config_serial_port = config.serial_port
    else True)

/-- The source record `start_stream` inserts (lines 945-954);
`config.dict()` stores every config field. -/
def mk_stream_source (config : StreamConfig) (source_id : String) : Source :=
  { source_id, source_type := config.stream_type, config_host := config.host,
    config_port := config.port, config_serial_port := config.serial_port,
    status := "active", message_count := 0 }

/-- `start_stream` (lines 913-954, registration part): reject a
duplicate with a 409 before any state is created, otherwise insert the
source record.  The endpoint has no surrounding `try`, so the 409
propagates to the caller. -/
def start_stream (config : StreamConfig) (new_id : String) (db : DB) :
    Except HTTPException DB :=
  match db.sources.find? (duplicate_stream_query config) with
  | some _ => .error { status_code := 409 }
  | none => .ok { db with sources := db.sources ++ [mk_stream_source config new_id] }

/-- The body of the `try:` block of `upload_file` (lines 851-909):
duplicate-filename check raising a 409, source insert, line loop
feeding `process_ais_message` (which never raises, so every sentence
counts as processed), final `message_count`/`last_message` update. -/
def upload_file_body (filename new_id : String) (lines : List (DecodeOutcome × Bool))
    (db : DB) : Except HTTPException DB :=
  match db.sources.find? (fun s =>
      s.source_type = "file" ∧ s.config_filename = some filename) with
  | some _ => .error { status_code := 409 }
  | none =>
    let source_doc : Source :=
      { source_id := new_id, source_type := "file",
        config_filename := some filename, status := "active", message_count := 0 }
    let db1 := { db with sources := db.sources ++ [source_doc] }
    let db2 := lines.foldl
      (fun acc l => process_ais_message l.1 l.2 (some new_id) acc) db1
    .ok { db2 with sources := db2.sources.map (fun s =>
      if s.source_id = new_id then
        { s with message_count := lines.length, last_message := some db2.now }
      else s) }

/-- `upload_file` (lines 848-911): the body above wrapped in
`except Exception as e: raise HTTPException(500, str(e))` — the
catch-all also captures the duplicate-check `HTTPException(409)` and
re-raises it with status 500. -/
def upload_file (filename new_id : String) (lines : List (DecodeOutcome × Bool))
    (db : DB) : Except HTTPException DB :=
  match upload_file_body filename new_id lines db with
  | .ok db1 => .ok db1
  | .error _ => .error { status_code := 500 }

/-- The anchor query of the spoof detector (`get_active_vessels`,
lines 1432-1440): base-station or VDO positions of the source with
display coordinates present and non-null.  The ingestion pipeline never
writes an `is_base_station` field on positions, so in practice only the
`is_vdo` disjunct matches. -/
def vdo_query (sid : String) (p : Position) : Bool :=
  (p.is_base_station = some true ∨ p.is_vdo) ∧ p.source_id = some sid ∧
    (fieldVal p.display_lat).isSome ∧ (fieldVal p.display_lon).isSome

/-- The candidate query of the spoof detector (lines 1454-1460):
non-VDO positions of the same source with `repeat_indicator ≤ 0` and
non-null display coordinates. -/
def vdm_query (sid : String) (p : Position) : Bool :=
  (¬p.is_vdo) ∧ p.source_id = some sid ∧ p.repeat_indicator ≤ (0 : ℤ) ∧
    (fieldVal p.display_lat).isSome ∧ (fieldVal p.display_lon).isSome

/-- The haversine great-circle distance in kilometres exactly as
computed in lines 1472-1481 (`math.radians`, `math.sin`, `math.asin`,
`math.sqrt` over an Earth radius of 6371 km), idealized over the
reals. -/
noncomputable def haversine_km (lat1 lon1 lat2 lon2 : ℚ) : ℝ :=
  let l1 : ℝ := (lat1 : ℝ) * Real.pi / 180
  let o1 : ℝ := (lon1 : ℝ) * Real.pi / 180
  let l2 : ℝ := (lat2 : ℝ) * Real.pi / 180
  let o2 : ℝ := (lon2 : ℝ) * Real.pi / 180
  let dlat := l2 - l1
  let dlon := o2 - o1
  let a := Real.sin (dlat / 2) ^ 2 +
    Real.cos l1 * Real.cos l2 * Real.sin (dlon / 2) ^ 2
  let c := 2 * Real.arcsin (Real.sqrt a)
  6371 * c

/-- The candidate loop of the spoof detector (lines 1462-1485): fold
over the candidate positions, keeping the running maximum of the
distances that pass the in-loop guard
`if vdm_lat and vdm_lon and repeat_ind <= 0` (Python truthiness: a
coordinate equal to 0.0 is falsy) and lie within the spoof limit. -/
noncomputable def spoof_radius_loop (vdo_lat vdo_lon : ℚ) (spoof_limit_km : ℝ)
    (cands : List Position) : ℝ :=
  cands.foldl (fun acc vdm_pos =>
    match fieldVal vdm_pos.display_lat, fieldVal vdm_pos.display_lon with
    | some vdm_lat, some vdm_lon =>
      if vdm_lat ≠ 0 ∧ vdm_lon ≠ 0 ∧ vdm_pos.repeat_indicator ≤ (0 : ℤ) then
        let distance_km := haversine_km vdo_lat vdo_lon vdm_lat vdm_lon
        if distance_km ≤ spoof_limit_km then max acc distance_km else acc
      else acc
    | _, _ => acc) 0

/-- The per-anchor spoof radius of `get_active_vessels`
(lines 1442-1494): read the anchor's display coordinates, skip the
anchor entirely when either is falsy
(`if not vdo_lat or not vdo_lon: continue` — null or 0.0), else run the
candidate loop over the source's candidate positions. -/
noncomputable def spoof_radius_for_anchor (db : DB) (sid : String)
    (spoof_limit_km : ℝ) (vdo_pos : Position) : Option ℝ :=
  match fieldVal vdo_pos.display_lat, fieldVal vdo_pos.display_lon with
  | some vdo_lat, some vdo_lon =>
    if vdo_lat = 0 ∨ vdo_lon = 0 then none
    else some (spoof_radius_loop vdo_lat vdo_lon spoof_limit_km
      (db.positions.filter (vdm_query sid)))
  | _, _ => none

/-- The spoof radius as the claim words it: the maximum haversine
distance from the anchor to the source's candidate positions (non-VDO,
`repeat_indicator ≤ 0`, non-null display coordinates) that lie within
the spoof limit, `0` when no candidate qualifies. -/
noncomputable def claim_spoof_radius (db : DB) (sid : String)
    (spoof_limit_km : ℝ) (vdo_lat vdo_lon : ℚ) : ℝ :=
  (((db.positions.filter (vdm_query sid)).filterMap (fun p =>
      match fieldVal p.display_lat, fieldVal p.display_lon with
      | some vlat, some vlon => some (haversine_km vdo_lat vdo_lon vlat vlon)
      | _, _ => none)).filter (fun d => d ≤ spoof_limit_km)).foldl max 0

/-- The claim's spoof radius amended by the counterexample: candidates
whose display latitude or longitude equals 0 are additionally excluded
(the Python truthiness guard). -/
noncomputable def amended_spoof_radius (db : DB) (sid : String)
    (spoof_limit_km : ℝ) (vdo_lat vdo_lon : ℚ) : ℝ :=
  (((db.positions.filter (vdm_query sid)).filterMap (fun p =>
      match fieldVal p.display_lat, fieldVal p.display_lon with
      | some vlat, some vlon =>
        if vlat ≠ 0 ∧ vlon ≠ 0 ∧ p.repeat_indicator ≤ (0 : ℤ) then
          some (haversine_km vdo_lat vdo_lon vlat vlon)
        else none
      | _, _ => none)).filter (fun d => d ≤ spoof_limit_km)).foldl max 0

end Backend

namespace Sqlite

/-- `is_valid_position` (src/backend-sqlite/server.py lines 342-351).
The sqlite variant takes non-null floats (a `None` input would raise in
the chained comparison, so callers null-check first). -/
def is_valid_position (lat lon : ℚ) : Bool :=
  if lat = 91 ∨ lon = 181 then false
  else if lat = 0 ∧ lon = 0 then false
  else if ¬(-90 ≤ lat ∧ lat ≤ 90) ∨ ¬(-180 ≤ lon ∧ lon ≤ 180) then false
  else true

/-- The message-limit enforcement of the sqlite `process_ais_message`
(src/backend-sqlite/server.py lines 454-487), restricted to one source
(the SQL filters on `source_id`): insert the new message row, then, if
the source's `message_limit` is positive and the row count has reached
it, delete the `count - limit + 1` oldest rows (ascending timestamp
order, matching insertion order) and their positions.  Rows are
modelled by their autoincrement ids. -/
def insert_with_limit (message_limit : Nat) (msgs : List Nat) (new_id : Nat) : List Nat :=
  let msgs1 := msgs ++ [new_id]
  if message_limit > 0 then
    let message_count := msgs1.length
    if message_count ≥ message_limit then
      let old_ids := msgs1.take (message_count - message_limit + 1)
      msgs1.filter (fun i => i ∉ old_ids)
    else msgs1
  else msgs1

/-- The sqlite message rows of one source after `n` successfully decoded
sentences under limit `message_limit`, starting from an empty table. -/
def process_n (message_limit n : Nat) : List Nat :=
  (List.range n).foldl (insert_with_limit message_limit) []

end Sqlite

namespace Backend

/-- A position's display coordinates are either both null (absent reads
back as null too) or both within the valid ranges — the invariant the
spec states for stored positions. -/
def display_ok (p : Position) : Prop :=
  (fieldVal p.display_lat = none ∧ fieldVal p.display_lon = none) ∨
  (∃ la lo, fieldVal p.display_lat = some la ∧ fieldVal p.display_lon = some lo ∧
    -90 ≤ la ∧ la ≤ 90 ∧ -180 ≤ lo ∧ lo ≤ 180)

/-- Position lists are stored in strictly increasing timestamp order
(each processed message takes a fresh clock value). -/
def ts_sorted (ps : List Position) : Prop :=
  List.Pairwise (fun p q => p.timestamp < q.timestamp) ps

/-- The pipeline invariant carried through ingestion: every stored
position has its display fields present (the inserts always write
them), satisfies `display_ok`, has in-range non-null display
coordinates whenever it is marked valid, and carries a timestamp below
the clock. -/
def pos_invariant (db : DB) : Prop :=
  ∀ p ∈ db.positions,
    p.display_lat.isSome ∧ p.display_lon.isSome ∧ display_ok p ∧
    (p.position_valid = true →
      ∃ la lo, p.display_lat = some (some la) ∧ p.display_lon = some (some lo) ∧
        -90 ≤ la ∧ la ≤ 90 ∧ -180 ≤ lo ∧ lo ≤ 180) ∧
    p.timestamp < db.now

/-- States reachable by the ingestion pipeline from a registered (but
not yet fed) set of sources: any number of `process_ais_message` calls,
with arbitrary decoder outcomes, VDO flags and source attribution. -/
inductive Reach : DB → Prop where
  | init (sources : List Source) :
      Reach { sources := sources, messages := [], positions := [], now := 0 }
  | step {db : DB} (o : DecodeOutcome) (v : Bool) (sid : Option String) :
      Reach db → Reach (process_ais_message o v sid db)

/-- A freshly registered source carrying an explicit `message_limit`,
and nothing else in the datastore: the state in which the retention
scenario of the spec starts. -/
def retention_scenario_db (sid : String) (L : Nat) : DB :=
  { sources := [{ source_id := sid, source_type := "file", message_limit := some L }],
    messages := [], positions := [], now := 0 }

/-- Feeding a list of successfully decoded sentences of one source
through the pipeline. -/
def run_ok_list (sid : String) (inputs : List (Decoded × Bool)) (db : DB) : DB :=
  inputs.foldl (fun acc i => process_ais_message (.ok i.1) i.2 (some sid) acc) db

/-- The invariant of the retention scenario after `k` messages: clock at
`k`, the single source intact apart from its counters, the stored
messages being exactly the `min k L` most recent timestamps, all
attributed to the source. -/
def retention_inv (sid : String) (L k : Nat) (db : DB) : Prop :=
  db.now = k ∧
  (∃ c lm, db.sources =
    [{ source_id := sid, source_type := "file", message_limit := some L,
       message_count := c, last_message := lm }]) ∧
  db.messages.map (fun m => m.timestamp) = List.range' (k - min k L) (min k L) ∧
  (∀ m ∈ db.messages, m.source_id = some sid)

end Backend

open Backend

/-! Concrete fixtures used by the per-claim evaluation theorems. -/

/-- C1 fixture: a registered file source. -/
def c1_db : DB :=
  { sources := [{ source_id := "s", source_type := "file", config_filename := some "log.txt" }],
    messages := [], positions := [], now := 0 }

/-- C1 fixture: a type-1 report for station 7 with the AIS no-fix
sentinel coordinates (91, 181) — an invalid position. -/
def c1_invalid : Decoded := { mmsi := "7", msg_type := 1, lat := some 91, lon := some 181 }

/-- C1 fixture: a type-1 report for station 7 at the valid fix (10, 20). -/
def c1_valid : Decoded := { mmsi := "7", msg_type := 1, lat := some 10, lon := some 20 }

/-- C1 fixture: the state after processing Invalid then Valid(10, 20)
for station 7 — the spec's backfill scenario. -/
def c1_run : DB :=
  process_ais_message (.ok c1_valid) false (some "s")
    (process_ais_message (.ok c1_invalid) false (some "s") c1_db)

/-- C2 witness fixture: a datastore already holding one valid position
for station 7 displayed at (5, 6). -/
def c2_db : DB :=
  { sources := [], messages := [],
    positions := [{ mmsi := "7", timestamp := 0, lat := some 5, lon := some 6,
                    display_lat := some (some 5), display_lon := some (some 6),
                    position_valid := true }],
    now := 1 }

/-- C2 witness fixture: an invalid type-1 report for station 7. -/
def c2_invalid : Decoded := { mmsi := "7", msg_type := 1, lat := some 91, lon := some 181 }

/-- C4 witness fixture: three arbitrary successfully decoded sentences. -/
def c4_inputs : List (Decoded × Bool) :=
  [({ mmsi := "7", msg_type := 5 }, false),
   ({ mmsi := "8", msg_type := 1, lat := some 1, lon := some 2 }, false),
   ({ mmsi := "7", msg_type := 5 }, true)]

/-- C5 fixture: a registered source whose `message_limit` is 0
(\"unlimited\" per the spec). -/
def c5_db : DB :=
  { sources := [{ source_id := "z", source_type := "file", message_limit := some 0 }],
    messages := [], positions := [], now := 0 }

/-- C5 fixture: a successfully decoded type-5 sentence. -/
def c5_msg : Decoded := { mmsi := "9", msg_type := 5 }

/-- C6 fixture: a paused streaming source. -/
def c6_db : DB :=
  { sources := [{ source_id := "p", source_type := "tcp",
                    config_host := some "10.0.0.1", config_port := some 4001,
                    is_paused := some true }],
    messages := [], positions := [], now := 0 }

/-- C6 fixture: the same source after resume (`is_paused` cleared). -/
def c6_db_resumed : DB :=
  { sources := [{ source_id := "p", source_type := "tcp",
                    config_host := some "10.0.0.1", config_port := some 4001,
                    is_paused := some false }],
    messages := [], positions := [], now := 0 }

/-- C6 fixture: a successfully decoded type-1 sentence. -/
def c6_msg : Decoded := { mmsi := "7", msg_type := 1, lat := some 10, lon := some 20 }

/-- C7 fixture: a datastore holding an already-uploaded file source
named `log.txt`. -/
def c7_db : DB :=
  { sources := [{ source_id := "f1", source_type := "file",
                    config_filename := some "log.txt" }],
    messages := [], positions := [], now := 0 }

/-- C7 witness fixture: a TCP stream configuration. -/
def c7_config : StreamConfig :=
  { stream_type := "tcp", host := some "10.0.0.1", port := some 4001 }

/-- C8 fixture: an own-ship (VDO) anchor position of source `s`
displayed at (10, 10). -/
def c8_anchor : Position :=
  { mmsi := "1", timestamp := 0, display_lat := some (some 10),
    display_lon := some (some 10), position_valid := true, is_vdo := true,
    source_id := some "s" }

/-- C8 fixture: a direct (non-relayed) received target of source `s`
displayed at (10, 0) — non-null display coordinates with a zero
longitude. -/
def c8_candidate : Position :=
  { mmsi := "2", timestamp := 1, display_lat := some (some 10),
    display_lon := some (some 0), position_valid := true, is_vdo := false,
    source_id := some "s", repeat_indicator := 0 }

/-- C8 fixture: the datastore holding the anchor and the candidate. -/
def c8_db : DB :=
  { sources := [{ source_id := "s", source_type := "tcp" }],
    messages := [], positions := [c8_anchor, c8_candidate], now := 2 }

/-- C7 witness fixture: an empty datastore to register into. -/
def c7_empty_db : DB := { sources := [], messages := [], positions := [], now := 0 }

/-- C7 witness fixture: the datastore after the first successful
registration of `c7_config`. -/
def c7_db1 : DB :=
  { sources := [mk_stream_source c7_config "a"], messages := [], positions := [],
    now := 0 }

/-- C9 witness fixture: an initial datastore with no sources. -/
def c9_db : DB := { sources := [], messages := [], positions := [], now := 0 }

/-- C10 witness fixture: an empty datastore. -/
def c10_db : DB := { sources := [], messages := [], positions := [], now := 0 }

/-- C10 witness fixture: a well-formed sentence processed after the
failing one. -/
def c10_rest : List Sentence :=
  [{ outcome := .ok { mmsi := "7", msg_type := 5 }, is_vdo := false, source_id := none }]

/-! ## Helper lemmas -/

/-- Characterization of the primary backend's position validator: true
exactly on non-null, in-range coordinate pairs. -/
theorem Backend.is_valid_position_eq_true (lat lon : Option ℚ) :
    Backend.is_valid_position lat lon = true ↔
      ∃ la lo, lat = some la ∧ lon = some lo ∧
        -90 ≤ la ∧ la ≤ 90 ∧ -180 ≤ lo ∧ lo ≤ 180 := by
  match lat, lon with
    | none, _ => simp [Backend.is_valid_position]
    | some la, none => simp [Backend.is_valid_position]
    | some la, some lo =>
      simp only [Backend.is_valid_position]
      split_ifs with h1 h2
      · simp only [Bool.false_eq_true, false_iff]
        rintro ⟨la2, lo2, he1, he2, c1, c2, c3, c4⟩
        cases he1; cases he2
        rcases h1 with h1 | h1 <;> linarith
      · simp only [Bool.false_eq_true, false_iff]
        rintro ⟨la2, lo2, he1, he2, c1, c2, c3, c4⟩
        cases he1; cases he2
        rcases h2 with h2 | h2 <;> linarith
      · push_neg at h1 h2
        simp only [true_iff]
        exact ⟨la, lo, rfl, rfl, h1.1, h1.2, h2.1, h2.2⟩

/-- Characterization of the sqlite position validator on the non-null
inputs it is defined for: true exactly on in-range pairs other than
`(0, 0)`. -/
theorem Sqlite.is_valid_position_true_iff (la lo : ℚ) :
    Sqlite.is_valid_position la lo = true ↔
      (-90 ≤ la ∧ la ≤ 90 ∧ -180 ≤ lo ∧ lo ≤ 180 ∧ ¬(la = 0 ∧ lo = 0)) := by
  simp only [Sqlite.is_valid_position]
  split_ifs with h1 h2 h3
  · simp only [Bool.false_eq_true, false_iff]
    rintro ⟨c1, c2, c3, c4, _⟩
    rcases h1 with h1 | h1 <;> subst h1 <;> linarith
  · simp only [Bool.false_eq_true, false_iff]
    rintro ⟨_, _, _, _, hc⟩
    exact hc h2
  · simp only [Bool.false_eq_true, false_iff]
    rintro ⟨c1, c2, c3, c4, _⟩
    rcases h3 with h3 | h3
    · exact absurd ⟨c1, c2⟩ h3
    · exact absurd ⟨c3, c4⟩ h3
  · push_neg at h3
    simp only [true_iff]
    exact ⟨h3.1.1, h3.1.2, h3.2.1, h3.2.2, h2⟩

/-! ## Claim theorems -/

/-- C3, counterexample: the coordinate pair `(0, 0)` is non-null and
within range, yet the sqlite variant of the position validator returns
`false`, refuting the claim as stated. -/
theorem C3_zero_zero_counterexample :
    ((-90 : ℚ) ≤ 0 ∧ (0 : ℚ) ≤ 90 ∧ (-180 : ℚ) ≤ 0 ∧ (0 : ℚ) ≤ 180) ∧
      Sqlite.is_valid_position 0 0 = false := by
  decide

/-- C3, amended: the primary backend validator returns `true` exactly on
non-null in-range pairs (and `false` on null or out-of-range input); the
sqlite variant, on the non-null inputs it is defined for, returns `true`
exactly on in-range pairs other than `(0, 0)`. -/
theorem C3_validator_amended :
    (∀ lat lon : Option ℚ,
      Backend.is_valid_position lat lon = true ↔
        ∃ la lo, lat = some la ∧ lon = some lo ∧
          -90 ≤ la ∧ la ≤ 90 ∧ -180 ≤ lo ∧ lo ≤ 180) ∧
    (∀ la lo : ℚ,
      Sqlite.is_valid_position la lo = true ↔
        (-90 ≤ la ∧ la ≤ 90 ∧ -180 ≤ lo ∧ lo ≤ 180 ∧ ¬(la = 0 ∧ lo = 0))) :=
  ⟨Backend.is_valid_position_eq_true, Sqlite.is_valid_position_true_iff⟩

/-- C1, code bug: in the spec's own scenario — an invalid report
followed by the first valid fix (10, 20) for station 7 — the first
stored position keeps null display coordinates and never gets a
`backfilled` mark: `backfill_invalid_positions` selects positions whose
`display_lat` field is *absent* (`{'$exists': False}`), but every
insert writes the field (as null when unresolved), so the backfill
never matches anything.  The claim (and the function's own docstring)
expects display (10, 20) with `backfilled = true`. -/
theorem C1_backfill_code_bug :
    c1_run.positions.map
        (fun p => (p.display_lat, p.display_lon, p.position_valid, p.backfilled)) =
      [(some none, some none, false, none),
       (some (some 10), some (some 20), true, none)] ∧
    c1_run.positions.map (fun p => (p.lat, p.lon)) =
      [(some 91, some 181), (some 10, some 20)] := by
  decide

/-- C5, code bug: with `message_limit = 0` (\"unlimited\" per the spec)
the primary backend purges *everything*: the purge compares the count
against the raw limit with no positive-limit guard, so after one
successfully decoded and stored sentence the source's messages are
already empty again (while `message_count` records that a message was
processed). -/
theorem C5_zero_limit_code_bug :
    ((process_ais_message (.ok c5_msg) false (some "z") c5_db).messages.filter
        (fun m => m.source_id = some "z")) = [] ∧
    (process_ais_message (.ok c5_msg) false (some "z") c5_db).sources.map
        (fun s => s.message_count) = [1] := by
  decide

/-- C4, counterexample: with `message_limit = 10`, processing 15
successfully decoded sentences leaves the sqlite backend with 9
messages, not the 10 most recent the claim requires: the purge triggers
at `count >= limit` and deletes `count - limit + 1` rows. -/
theorem C4_sqlite_counterexample :
    (Sqlite.process_n 10 15).length = 9 ∧ (9 : Nat) ≠ 10 := by
  decide

/-- C6, counterexample: a paused source that receives a sentence
through the stream path stores no message, but
`process_stream_message` still increments the source's `message_count`
(and refreshes `last_message`) unconditionally — the claim requires all
source counters to stay unchanged. -/
theorem C6_paused_counter_counterexample :
    (process_stream_message (.ok c6_msg) false "p" c6_db).messages = [] ∧
    (process_stream_message (.ok c6_msg) false "p" c6_db).positions = [] ∧
    (process_stream_message (.ok c6_msg) false "p" c6_db).sources.map
        (fun s => s.message_count) = [1] := by
  decide

/-- C7, counterexample: registering a duplicate file source is
rejected, but the `HTTPException(409)` raised by the duplicate check is
captured by `upload_file`'s catch-all handler and re-raised with status
500 — the caller sees an internal-server error, not a conflict. -/
theorem C7_file_conflict_counterexample :
    upload_file "log.txt" "f2" [] c7_db = .error { status_code := 500 } ∧
    (500 : Nat) ≠ 409 := by
  constructor
  · rfl
  · decide

/-! ## Frame lemmas for the pipeline phases -/

/-- The backfill touches only the positions list. -/
theorem Backend.backfill_messages_eq (db : DB) (mmsi : String) (la lo : Option ℚ) :
    (backfill_invalid_positions db mmsi la lo).messages = db.messages := rfl

/-- The position branch touches only the positions list. -/
theorem Backend.position_branch_messages_eq (db : DB) (mmsi : String) (ts : Nat)
    (d : Decoded) (sid : Option String) (v : Bool) :
    (position_branch db mmsi ts d sid v).messages = db.messages := by
  unfold position_branch
  dsimp only
  split <;> rfl

/-- The source-stat bump touches only the sources list. -/
theorem Backend.bump_source_stats_messages_eq (db : DB) (sid : String) (ts : Nat) :
    (bump_source_stats db sid ts).messages = db.messages := rfl

/-- C10: the message-processing entry point never propagates a failure:
whenever the body of the `try:` block raises (`isOk = false`, e.g. a
decoder exception), the call returns normally with the state unchanged
and processing of the remaining sentences continues as if the failing
sentence had not been seen; when the body succeeds, its result is
returned unchanged. -/
theorem C10_no_propagation (o : DecodeOutcome) (v : Bool) (sid : Option String)
    (db : DB) (rest : List Sentence) :
    ((process_ais_message_body o v sid db).isOk = false →
      process_ais_message o v sid db = db ∧
      process_list ({ outcome := o, is_vdo := v, source_id := sid } :: rest) db =
        process_list rest db) ∧
    ((process_ais_message_body o v sid db).isOk = true →
      process_ais_message_body o v sid db = .ok (process_ais_message o v sid db)) := by
  constructor
  · intro hfail
    have hp : process_ais_message o v sid db = db := by
      unfold process_ais_message
      cases hb : process_ais_message_body o v sid db with
      | ok d => rw [hb] at hfail; simp [Except.isOk, Except.toBool] at hfail
      | error e => rfl
    refine ⟨hp, ?_⟩
    simp only [process_list, List.foldl_cons, hp]
  · intro hok
    unfold process_ais_message
    cases hb : process_ais_message_body o v sid db with
    | ok d => rfl
    | error e => rw [hb] at hok; simp [Except.isOk, Except.toBool] at hok

/-- C10 witness: the decoder raising on a malformed sentence makes the
body fail, the entry point returns the state unchanged, and the next
sentence is processed as usual. -/
theorem C10_no_propagation_witness :
    (process_ais_message_body .exc false none c10_db).isOk = false ∧
    (process_ais_message .exc false none c10_db = c10_db ∧
      process_list ({ outcome := .exc, is_vdo := false, source_id := none } :: c10_rest)
          c10_db =
        process_list c10_rest c10_db) :=
  ⟨by decide, (C10_no_propagation .exc false none c10_db c10_rest).1 (by decide)⟩

/-- A freshly inserted stream source matches its own duplicate query. -/
theorem Backend.mk_stream_source_self_dup (config : StreamConfig) (new_id : String) :
    duplicate_stream_query config (mk_stream_source config new_id) = true := by
  simp only [duplicate_stream_query, mk_stream_source]
  split_ifs <;> simp

/-- C6, amended: for a paused source, `process_ais_message` drops the
sentence leaving the whole datastore unchanged (no message, no
position, no counter update); but a sentence arriving through the
stream path still has `message_count` incremented and `last_message`
refreshed by `process_stream_message`'s unconditional bump.  Once the
pause flag is cleared, the message envelope is stored through the
normal insert-and-purge path again. -/
theorem C6_paused_amended (db : DB) (sid : String) (o : DecodeOutcome) (v : Bool)
    (d : Decoded) :
    (source_paused db (some sid) = true →
      process_ais_message o v (some sid) db = db ∧
      process_stream_message o v sid db =
        { db with sources := db.sources.map (fun s =>
            if s.source_id = sid then
              { s with message_count := s.message_count + 1,
                       last_message := some db.now }
            else s) }) ∧
    (source_paused db (some sid) = false →
      (process_ais_message (.ok d) v (some sid) db).messages =
        (ingest_phase d v (some sid) db).messages) := by
  constructor
  · intro hp
    have h1 : process_ais_message o v (some sid) db = db := by
      unfold process_ais_message process_ais_message_body
      simp only [hp, if_true]
    refine ⟨h1, ?_⟩
    unfold process_stream_message
    rw [h1]
  · intro hp
    unfold process_ais_message process_ais_message_body
    simp only [hp, Bool.false_eq_true, if_false]
    rw [Backend.bump_source_stats_messages_eq]
    split
    · rw [Backend.position_branch_messages_eq]
    · rfl

/-- C6 witness: the paused fixture drops the sentence but gets its
`message_count` bumped by the stream path; the resumed fixture stores
the message envelope normally. -/
theorem C6_paused_witness :
    (source_paused c6_db (some "p") = true ∧
      (process_ais_message (.ok c6_msg) false (some "p") c6_db = c6_db ∧
        process_stream_message (.ok c6_msg) false "p" c6_db =
          { c6_db with sources := c6_db.sources.map (fun s =>
              if s.source_id = "p" then
                { s with message_count := s.message_count + 1,
                         last_message := some c6_db.now }
              else s) })) ∧
    (source_paused c6_db_resumed (some "p") = false ∧
      (process_ais_message (.ok c6_msg) false (some "p") c6_db_resumed).messages =
        (ingest_phase c6_msg false (some "p") c6_db_resumed).messages) :=
  ⟨⟨by decide, (C6_paused_amended c6_db "p" (.ok c6_msg) false c6_msg).1 (by decide)⟩,
   ⟨by decide, (C6_paused_amended c6_db_resumed "p" (.ok c6_msg) false c6_msg).2 (by decide)⟩⟩

/-- C7, amended: duplicate registration never creates a second source
record; a duplicate stream registration surfaces a 409 conflict to the
caller, while a duplicate file upload is rejected but its 409 is
re-wrapped as a 500 by the endpoint's catch-all handler; and after two
registrations with the same transport and endpoint exactly one matching
source record exists. -/
theorem C7_duplicate_amended (config : StreamConfig) (id1 id2 fid filename : String)
    (lines : List (DecodeOutcome × Bool)) (db dbF db1 : DB) :
    ((∃ s ∈ db.sources, duplicate_stream_query config s = true) →
      start_stream config id1 db = .error { status_code := 409 }) ∧
    ((∃ s ∈ dbF.sources, s.source_type = "file" ∧ s.config_filename = some filename) →
      upload_file filename fid lines dbF = .error { status_code := 500 }) ∧
    ((∀ s ∈ db.sources, duplicate_stream_query config s = false) →
      start_stream config id1 db = .ok db1 →
      start_stream config id2 db1 = .error { status_code := 409 } ∧
      (db1.sources.filter (duplicate_stream_query config)).length = 1) := by
  refine ⟨?_, ?_, ?_⟩
  · rintro ⟨s, hs, hq⟩
    have hsome : (db.sources.find? (duplicate_stream_query config)).isSome :=
      List.find?_isSome.mpr ⟨s, hs, hq⟩
    obtain ⟨x, hx⟩ := Option.isSome_iff_exists.mp hsome
    unfold start_stream
    rw [hx]
  · rintro ⟨s, hs, h1, h2⟩
    have hsome : (dbF.sources.find? (fun s =>
        s.source_type = "file" ∧ s.config_filename = some filename)).isSome :=
      List.find?_isSome.mpr ⟨s, hs, by simp [h1, h2]⟩
    obtain ⟨x, hx⟩ := Option.isSome_iff_exists.mp hsome
    unfold upload_file upload_file_body
    rw [hx]
  · intro hnone hok
    have hfind : db.sources.find? (duplicate_stream_query config) = none :=
      List.find?_eq_none.mpr (by intro x hx; simp [hnone x hx])
    unfold start_stream at hok
    rw [hfind] at hok
    have hdb1 := Except.ok.inj hok
    constructor
    · unfold start_stream
      rw [← hdb1]
      rw [List.find?_append, hfind]
      simp [List.find?, Backend.mk_stream_source_self_dup]
    · rw [← hdb1]
      simp only [List.filter_append]
      rw [List.filter_eq_nil_iff.mpr (by intro x hx; simp [hnone x hx])]
      simp [Backend.mk_stream_source_self_dup]

/-- C7 witness: the duplicate file upload into the fixture returns the
wrapped 500; registering the TCP fixture twice yields a 409 on the
second attempt and exactly one matching source record. -/
theorem C7_duplicate_witness :
    ((∃ s ∈ c7_db.sources, s.source_type = "file" ∧ s.config_filename = some "log.txt") ∧
      upload_file "log.txt" "f2" [] c7_db = .error { status_code := 500 }) ∧
    ((∀ s ∈ c7_empty_db.sources, duplicate_stream_query c7_config s = false) ∧
      start_stream c7_config "a" c7_empty_db = .ok c7_db1 ∧
      start_stream c7_config "b" c7_db1 = .error { status_code := 409 } ∧
      (c7_db1.sources.filter (duplicate_stream_query c7_config)).length = 1) := by
  have h3 := (C7_duplicate_amended c7_config "a" "b" "f2" "log.txt" [] c7_empty_db
    c7_db c7_db1).2.2 (by decide) rfl
  exact ⟨⟨by decide,
      (C7_duplicate_amended c7_config "a" "b" "f2" "log.txt" [] c7_empty_db
        c7_db c7_db1).2.1 (by decide)⟩,
    ⟨by decide, rfl, h3.1, h3.2⟩⟩

/-! ## Sorted-position helpers (for the last-valid lookup) -/

/-- The source-stat bump touches only the sources list. -/
theorem Backend.bump_source_stats_positions_eq (db : DB) (sid : String) (ts : Nat) :
    (bump_source_stats db sid ts).positions = db.positions := rfl

/-- The purge only ever removes positions. -/
theorem Backend.purge_messages_positions_sublist (db : DB) (sid : String) :
    (purge_messages db sid).positions.Sublist db.positions := by
  unfold purge_messages
  split
  · exact List.Sublist.refl _
  · dsimp only
    split
    · split
      · exact List.filter_sublist _
      · exact List.Sublist.refl _
    · exact List.Sublist.refl _

/-- The insert-and-purge phase only ever removes positions. -/
theorem Backend.ingest_phase_positions_sublist (d : Decoded) (v : Bool)
    (sid : Option String) (db : DB) :
    (ingest_phase d v sid db).positions.Sublist db.positions := by
  unfold ingest_phase
  cases sid with
  | none => exact List.Sublist.refl _
  | some s => exact Backend.purge_messages_positions_sublist _ s

/-- In a timestamp-sorted list the last element has the maximal
timestamp. -/
theorem Backend.ts_sorted_le_getLast {l : List Position} {q : Position}
    (hs : ts_sorted l) (hq : l.getLast? = some q) :
    ∀ r ∈ l, r.timestamp ≤ q.timestamp := by
  induction l with
  | nil => simp at hq
  | cons a t ih =>
    cases t with
    | nil =>
      simp at hq
      subst hq
      intro r hr
      simp at hr
      subst hr
      exact le_refl _
    | cons b t2 =>
      rw [List.getLast?_cons_cons] at hq
      have hcons := List.pairwise_cons.mp hs
      intro r hr
      rcases List.mem_cons.mp hr with rfl | hr2
      · exact (hcons.1 q (List.mem_of_mem_getLast? hq)).le
      · exact ih hcons.2 hq r hr2

/-- C2: when a position-bearing message with invalid decoded
coordinates is processed (source not paused), the persisted Position
has `position_valid = false` and display coordinates copied from the
station's most recent stored Position with `position_valid = true`
(maximal timestamp among them); when the station has no valid stored
Position, both display coordinates are null. -/
theorem C2_invalid_display_from_last_valid
    (db : DB) (d : Decoded) (v : Bool) (sid : Option String)
    (hpause : source_paused db sid = false)
    (htype : d.msg_type ∈ position_types)
    (hinvalid : is_valid_position d.lat d.lon = false)
    (hsorted : ts_sorted db.positions) :
    ∃ p, (process_ais_message (.ok d) v sid db).positions =
        (ingest_phase d v sid db).positions ++ [p] ∧
      p.position_valid = false ∧
      ((∃ q ∈ (ingest_phase d v sid db).positions,
          q.mmsi = d.mmsi ∧ q.position_valid = true ∧
          (∀ r ∈ (ingest_phase d v sid db).positions,
            r.mmsi = d.mmsi → r.position_valid = true → r.timestamp ≤ q.timestamp) ∧
          p.display_lat = some (fieldVal q.display_lat) ∧
          p.display_lon = some (fieldVal q.display_lon))
       ∨ ((∀ q ∈ (ingest_phase d v sid db).positions,
            ¬(q.mmsi = d.mmsi ∧ q.position_valid = true)) ∧
          p.display_lat = some none ∧ p.display_lon = some none)) := by
  have hmidsorted : ts_sorted (ingest_phase d v sid db).positions :=
    List.Pairwise.sublist (Backend.ingest_phase_positions_sublist d v sid db) hsorted
  have hpos : (process_ais_message (.ok d) v sid db).positions =
      (position_branch (ingest_phase d v sid db) d.mmsi db.now d sid v).positions := by
    unfold process_ais_message process_ais_message_body
    simp only [hpause, Bool.false_eq_true, if_false]
    simp only [htype, if_true]
    cases sid with
    | none => rfl
    | some s => rfl
  rw [hpos]
  unfold position_branch
  simp only [hinvalid, Bool.false_eq_true, if_false]
  cases hg : get_last_valid_position (ingest_phase d v sid db) d.mmsi with
  | some lv =>
    unfold get_last_valid_position at hg
    cases hl : ((ingest_phase d v sid db).positions.filter
        (fun p => p.mmsi = d.mmsi ∧ p.position_valid)).getLast? with
    | some q =>
      rw [hl] at hg
      dsimp only at hg
      have hlv := (Option.some.inj hg).symm
      have hqmem := List.mem_of_mem_getLast? hl
      have hqin := List.mem_filter.mp hqmem
      have hqprop : q.mmsi = d.mmsi ∧ q.position_valid = true := by
        have := hqin.2
        simpa using this
      refine ⟨_, rfl, rfl, ?_⟩
      left
      refine ⟨q, hqin.1, hqprop.1, hqprop.2, ?_, ?_, ?_⟩
      · intro r hr hm hv2
        have hfsorted : ts_sorted ((ingest_phase d v sid db).positions.filter
            (fun p => p.mmsi = d.mmsi ∧ p.position_valid)) :=
          List.Pairwise.sublist (List.filter_sublist _) hmidsorted
        have hrmem : r ∈ (ingest_phase d v sid db).positions.filter
            (fun p => p.mmsi = d.mmsi ∧ p.position_valid) :=
          List.mem_filter.mpr ⟨hr, by simp [hm, hv2]⟩
        exact Backend.ts_sorted_le_getLast hfsorted hl r hrmem
      · simp [hlv]
      · simp [hlv]
    | none =>
      rw [hl] at hg
      simp at hg
  | none =>
    unfold get_last_valid_position at hg
    cases hl : ((ingest_phase d v sid db).positions.filter
        (fun p => p.mmsi = d.mmsi ∧ p.position_valid)).getLast? with
    | some q => rw [hl] at hg; simp at hg
    | none =>
      have hnil := List.getLast?_eq_none_iff.mp hl
      have hempty := List.filter_eq_nil_iff.mp hnil
      refine ⟨_, rfl, rfl, ?_⟩
      right
      refine ⟨?_, rfl, rfl⟩
      intro qq hqq hc
      exact hempty qq hqq (by simp [hc.1, hc.2])

/-- C2 witness: processing an invalid report for station 7 over a
datastore holding one valid fix displayed at (5, 6) copies that display
onto the new invalid position. -/
theorem C2_invalid_display_witness :
    (source_paused c2_db none = false ∧ c2_invalid.msg_type ∈ position_types ∧
      is_valid_position c2_invalid.lat c2_invalid.lon = false ∧
      ts_sorted c2_db.positions) ∧
    (∃ p, (process_ais_message (.ok c2_invalid) false none c2_db).positions =
        (ingest_phase c2_invalid false none c2_db).positions ++ [p] ∧
      p.position_valid = false ∧
      ((∃ q ∈ (ingest_phase c2_invalid false none c2_db).positions,
          q.mmsi = c2_invalid.mmsi ∧ q.position_valid = true ∧
          (∀ r ∈ (ingest_phase c2_invalid false none c2_db).positions,
            r.mmsi = c2_invalid.mmsi → r.position_valid = true →
              r.timestamp ≤ q.timestamp) ∧
          p.display_lat = some (fieldVal q.display_lat) ∧
          p.display_lon = some (fieldVal q.display_lon))
       ∨ ((∀ q ∈ (ingest_phase c2_invalid false none c2_db).positions,
            ¬(q.mmsi = c2_invalid.mmsi ∧ q.position_valid = true)) ∧
          p.display_lat = some none ∧ p.display_lon = some none))) :=
  ⟨⟨by decide, by decide, by decide, by simp [ts_sorted, c2_db]⟩,
    C2_invalid_display_from_last_valid c2_db c2_invalid false none
      (by decide) (by decide) (by decide) (by simp [ts_sorted, c2_db])⟩

/-! ## Invariant preservation (display coordinates) -/

/-- The purge leaves the clock unchanged. -/
theorem Backend.purge_messages_now_eq (db : DB) (sid : String) :
    (purge_messages db sid).now = db.now := by
  unfold purge_messages
  split
  · rfl
  · dsimp only
    split
    · split <;> rfl
    · rfl

/-- The insert-and-purge phase advances the clock by exactly one. -/
theorem Backend.ingest_phase_now_eq (d : Decoded) (v : Bool) (sid : Option String)
    (db : DB) : (ingest_phase d v sid db).now = db.now + 1 := by
  unfold ingest_phase
  cases sid with
  | none => rfl
  | some s => exact Backend.purge_messages_now_eq _ s

/-- The position branch leaves the clock unchanged. -/
theorem Backend.position_branch_now_eq (db : DB) (mmsi : String) (ts : Nat)
    (d : Decoded) (sid : Option String) (v : Bool) :
    (position_branch db mmsi ts d sid v).now = db.now := by
  unfold position_branch
  dsimp only
  split <;> rfl

/-- When every stored position has its `display_lat` field present (as
the pipeline guarantees), the backfill's `$exists: False` query matches
nothing and the backfill is a no-op. -/
theorem Backend.backfill_noop (db : DB) (mmsi : String) (la lo : Option ℚ)
    (h : ∀ p ∈ db.positions, p.display_lat.isSome) :
    backfill_invalid_positions db mmsi la lo = db := by
  unfold backfill_invalid_positions
  have hmap : db.positions.map (fun p =>
      if p.mmsi = mmsi ∧ p.position_valid = false ∧ p.display_lat = none then
        { p with display_lat := some la, display_lon := some lo,
                 backfilled := some true }
      else p) = db.positions := by
    conv_rhs => rw [← List.map_id db.positions]
    apply List.map_congr_left
    intro p hp
    rw [if_neg]
    · rfl
    · rintro ⟨h1x, h2x, hnone⟩
      have h3x := h p hp
      rw [hnone] at h3x
      simp at h3x
  rw [hmap]

/-- The last-valid lookup returns the display coordinates of some
stored position marked valid. -/
theorem Backend.get_last_valid_some {db : DB} {mmsi : String}
    {lv : Option ℚ × Option ℚ}
    (hg : get_last_valid_position db mmsi = some lv) :
    ∃ q ∈ db.positions, q.position_valid = true ∧
      lv = (fieldVal q.display_lat, fieldVal q.display_lon) := by
  unfold get_last_valid_position at hg
  cases hl : (db.positions.filter (fun p => p.mmsi = mmsi ∧ p.position_valid)).getLast? with
  | some q =>
    rw [hl] at hg
    dsimp only at hg
    have hq := List.mem_filter.mp (List.mem_of_mem_getLast? hl)
    refine ⟨q, hq.1, ?_, (Option.some.inj hg).symm⟩
    have h2 := hq.2
    simp at h2
    exact h2.2
  | none => rw [hl] at hg; simp at hg

/-- The position branch preserves the display invariant, and every
position it leaves behind is either an untouched pre-existing one or
the freshly inserted one (timestamped `ts`). -/
theorem Backend.position_branch_invariant (db : DB) (ts : Nat) (d : Decoded)
    (sid : Option String) (v : Bool) (h : pos_invariant db) (hts : ts < db.now) :
    pos_invariant (position_branch db d.mmsi ts d sid v) ∧
    ∀ p2 ∈ (position_branch db d.mmsi ts d sid v).positions,
      p2 ∈ db.positions ∨ p2.timestamp = ts := by
  unfold position_branch
  cases hv : is_valid_position d.lat d.lon with
  | true =>
    obtain ⟨la, lo, hla, hlo, b1, b2, b3, b4⟩ :=
      (Backend.is_valid_position_eq_true d.lat d.lon).mp hv
    simp only [hv, if_true]
    rw [Backend.backfill_noop]
    · constructor
      · intro p2 hp2
        rcases List.mem_append.mp hp2 with hold | hnew
        · exact h p2 hold
        · have hp2e := List.mem_singleton.mp hnew
          subst hp2e
          refine ⟨by simp, by simp, ?_, ?_, hts⟩
          · right
            exact ⟨la, lo, by simp [fieldVal, hla], by simp [fieldVal, hlo],
              b1, b2, b3, b4⟩
          · intro h4x
            exact ⟨la, lo, by simp [hla], by simp [hlo], b1, b2, b3, b4⟩
      · intro p2 hp2
        rcases List.mem_append.mp hp2 with hold | hnew
        · exact Or.inl hold
        · have hp2e := List.mem_singleton.mp hnew
          subst hp2e
          exact Or.inr rfl
    · intro p hp2
      rcases List.mem_append.mp hp2 with hold | hnew
      · exact (h p hold).1
      · have hpe := List.mem_singleton.mp hnew
        subst hpe
        simp
  | false =>
    simp only [hv, Bool.false_eq_true, if_false]
    cases hg : get_last_valid_position db d.mmsi with
    | some lv =>
      obtain ⟨q, hqmem, hqvalid, hlv⟩ := Backend.get_last_valid_some hg
      obtain ⟨qla, qlo, hq1, hq2, qb1, qb2, qb3, qb4⟩ := (h q hqmem).2.2.2.1 hqvalid
      constructor
      · intro p2 hp2
        rcases List.mem_append.mp hp2 with hold | hnew
        · exact h p2 hold
        · have hp2e := List.mem_singleton.mp hnew
          subst hp2e
          refine ⟨by simp, by simp, ?_, by simp, hts⟩
          right
          refine ⟨qla, qlo, ?_, ?_, qb1, qb2, qb3, qb4⟩
          · simp [fieldVal, hlv, hq1]
          · simp [fieldVal, hlv, hq2]
      · intro p2 hp2
        rcases List.mem_append.mp hp2 with hold | hnew
        · exact Or.inl hold
        · have hp2e := List.mem_singleton.mp hnew
          subst hp2e
          exact Or.inr rfl
    | none =>
      constructor
      · intro p2 hp2
        rcases List.mem_append.mp hp2 with hold | hnew
        · exact h p2 hold
        · have hp2e := List.mem_singleton.mp hnew
          subst hp2e
          exact ⟨by simp, by simp, Or.inl ⟨by simp [fieldVal], by simp [fieldVal]⟩,
            by simp, hts⟩
      · intro p2 hp2
        rcases List.mem_append.mp hp2 with hold | hnew
        · exact Or.inl hold
        · have hp2e := List.mem_singleton.mp hnew
          subst hp2e
          exact Or.inr rfl

/-- One `process_ais_message` step preserves the display invariant, and
every position present afterwards is either an untouched pre-existing
position or the one inserted by this step (timestamped with the entry
clock) — in particular no stored position ever has its display
coordinates rewritten, let alone reverted to null. -/
theorem Backend.pos_invariant_step (o : DecodeOutcome) (v : Bool)
    (sid : Option String) (db : DB) (h : pos_invariant db) :
    pos_invariant (process_ais_message o v sid db) ∧
    ∀ p2 ∈ (process_ais_message o v sid db).positions,
      p2 ∈ db.positions ∨ p2.timestamp = db.now := by
  by_cases hp : source_paused db sid = true
  · have he : process_ais_message o v sid db = db := by
      unfold process_ais_message process_ais_message_body
      simp only [hp, if_true]
    rw [he]
    exact ⟨h, fun p2 hp2 => Or.inl hp2⟩
  · have hps : source_paused db sid = false := by
      simpa using hp
    cases o with
    | exc =>
      have he : process_ais_message .exc v sid db = db := by
        unfold process_ais_message process_ais_message_body
        simp only [hps, Bool.false_eq_true, if_false]
      rw [he]
      exact ⟨h, fun p2 hp2 => Or.inl hp2⟩
    | failed =>
      have hpos : (process_ais_message .failed v sid db).positions = db.positions := by
        unfold process_ais_message process_ais_message_body
        simp only [hps, Bool.false_eq_true, if_false]
        cases sid <;> rfl
      have hnow : (process_ais_message .failed v sid db).now = db.now := by
        unfold process_ais_message process_ais_message_body
        simp only [hps, Bool.false_eq_true, if_false]
        cases sid <;> rfl
      constructor
      · intro p2 hp2
        rw [hpos] at hp2
        have hi := h p2 hp2
        rw [hnow]
        exact hi
      · intro p2 hp2
        rw [hpos] at hp2
        exact Or.inl hp2
    | ok d =>
      have hmidnow : (ingest_phase d v sid db).now = db.now + 1 :=
        Backend.ingest_phase_now_eq d v sid db
      have hmidsub := Backend.ingest_phase_positions_sublist d v sid db
      have hmidinv : pos_invariant (ingest_phase d v sid db) := by
        intro p hp2
        have hi := h p (hmidsub.subset hp2)
        exact ⟨hi.1, hi.2.1, hi.2.2.1, hi.2.2.2.1, by
          rw [hmidnow]; exact Nat.lt_succ_of_lt hi.2.2.2.2⟩
      have hfpos : (process_ais_message (.ok d) v sid db).positions =
          (if d.msg_type ∈ position_types then
            position_branch (ingest_phase d v sid db) d.mmsi db.now d sid v
          else ingest_phase d v sid db).positions := by
        unfold process_ais_message process_ais_message_body
        simp only [hps, Bool.false_eq_true, if_false]
        cases sid <;> rfl
      have hfnow : (process_ais_message (.ok d) v sid db).now =
          (if d.msg_type ∈ position_types then
            position_branch (ingest_phase d v sid db) d.mmsi db.now d sid v
          else ingest_phase d v sid db).now := by
        unfold process_ais_message process_ais_message_body
        simp only [hps, Bool.false_eq_true, if_false]
        cases sid <;> rfl
      by_cases htype : d.msg_type ∈ position_types
      · rw [if_pos htype] at hfpos hfnow
        have hts : db.now < (ingest_phase d v sid db).now := by
          rw [hmidnow]; exact Nat.lt_succ_self _
        have hbr := Backend.position_branch_invariant (ingest_phase d v sid db)
          db.now d sid v hmidinv hts
        constructor
        · intro p2 hp2
          rw [hfpos] at hp2
          have hi := hbr.1 p2 hp2
          rw [hfnow]
          exact hi
        · intro p2 hp2
          rw [hfpos] at hp2
          rcases hbr.2 p2 hp2 with hin | hnew
          · exact Or.inl (hmidsub.subset hin)
          · exact Or.inr hnew
      · rw [if_neg htype] at hfpos hfnow
        constructor
        · intro p2 hp2
          rw [hfpos] at hp2
          have hi := hmidinv p2 hp2
          rw [hfnow]
          exact hi
        · intro p2 hp2
          rw [hfpos] at hp2
          exact Or.inl (hmidsub.subset hp2)

/-- Every pipeline-reachable state satisfies the display invariant. -/
theorem Backend.reach_pos_invariant {db : DB} (h : Reach db) : pos_invariant db := by
  induction h with
  | init sources => intro p hp2; simp at hp2
  | step o v sid hr ih => exact (Backend.pos_invariant_step o v sid _ ih).1

/-- C9: in every pipeline-reachable datastore, each stored Position's
display coordinates are either both null or both within the valid
ranges; and a processing step never rewrites a stored position — each
position present after a step is an untouched pre-existing position or
the step's fresh insert — so display coordinates are in particular
never reverted from non-null to null. -/
theorem C9_display_invariant (db : DB) (h : Reach db) :
    (∀ p ∈ db.positions, display_ok p) ∧
    ∀ (o : DecodeOutcome) (v : Bool) (sid : Option String),
      ∀ p2 ∈ (process_ais_message o v sid db).positions,
        p2 ∈ db.positions ∨ p2.timestamp = db.now := by
  have hinv := Backend.reach_pos_invariant h
  exact ⟨fun p hp => (hinv p hp).2.2.1,
    fun o v sid => (Backend.pos_invariant_step o v sid db hinv).2⟩

/-- C9 witness: the initial reachable state (and one step out of it). -/
theorem C9_display_invariant_witness :
    Reach c9_db ∧
    ((∀ p ∈ c9_db.positions, display_ok p) ∧
      ∀ (o : DecodeOutcome) (v : Bool) (sid : Option String),
        ∀ p2 ∈ (process_ais_message o v sid c9_db).positions,
          p2 ∈ c9_db.positions ∨ p2.timestamp = c9_db.now) :=
  ⟨Reach.init [], C9_display_invariant c9_db (Reach.init [])⟩

/-! ## Retention (message-limit) characterization -/

/-- Dropping a range' prefix. -/
theorem drop_range' (s n m : Nat) :
    (List.range' s n).drop m = List.range' (s + m) (n - m) := by
  induction n generalizing s m with
  | zero => simp
  | succ n ih =>
    cases m with
    | zero => simp
    | succ m =>
      rw [List.range'_succ, List.drop_succ_cons, ih]
      congr 1 <;> omega

/-- Deleting from a duplicate-free list exactly the elements whose key
appears in its `j`-prefix drops that prefix. -/
theorem filter_key_not_mem_take {α : Type} (key : α → Nat) :
    ∀ (l : List α) (j : Nat), (l.map key).Nodup →
      l.filter (fun x => key x ∉ (l.take j).map key) = l.drop j := by
  intro l
  induction l with
  | nil => intro j h; simp
  | cons a t ih =>
    intro j h
    cases j with
    | zero => simp
    | succ j =>
      rw [List.take_succ_cons, List.map_cons, List.drop_succ_cons]
      rw [List.filter_cons]
      have hpa : (decide (key a ∉ key a :: (t.take j).map key)) = false := by simp
      rw [hpa]
      simp only [Bool.false_eq_true, if_false]
      rw [List.map_cons] at h
      have hnd := List.nodup_cons.mp h
      have hcong : t.filter (fun x => decide (key x ∉ key a :: (t.take j).map key)) =
          t.filter (fun x => decide (key x ∉ (t.take j).map key)) := by
        apply List.filter_congr
        intro x hx
        have hne : key x ≠ key a := by
          intro he
          exact hnd.1 (he ▸ List.mem_map.mpr ⟨x, hx, rfl⟩)
        simp [List.mem_cons, hne]
      rw [hcong, ih j hnd.2]

/-- The purge leaves the sources untouched. -/
theorem Backend.purge_messages_sources_eq (db : DB) (sid : String) :
    (purge_messages db sid).sources = db.sources := by
  unfold purge_messages
  split
  · rfl
  · dsimp only
    split
    · split <;> rfl
    · rfl

/-- The position branch leaves the sources untouched. -/
theorem Backend.position_branch_sources_eq (db : DB) (mmsi : String) (ts : Nat)
    (d : Decoded) (sid : Option String) (v : Bool) :
    (position_branch db mmsi ts d sid v).sources = db.sources := by
  unfold position_branch
  dsimp only
  split <;> rfl

/-- On a datastore whose only source is `sid` with an explicit
`message_limit` and whose messages (with duplicate-free timestamps) all
belong to that source, the purge keeps exactly the `message_limit` most
recent messages (and never touches sources or the clock). -/
theorem Backend.purge_all_sid (sid : String) (L c : Nat) (lm : Option Nat) (db : DB)
    (hsrc : db.sources =
      [{ source_id := sid, source_type := "file", message_limit := some L,
         message_count := c, last_message := lm }])
    (hall : ∀ m ∈ db.messages, m.source_id = some sid)
    (hnodup : (db.messages.map (fun m => m.timestamp)).Nodup) :
    (purge_messages db sid).messages = db.messages.drop (db.messages.length - L) := by
  unfold purge_messages
  rw [hsrc, List.find?_cons_of_pos _ (by simp)]
  dsimp only
  simp only [Option.getD_some]
  have hfs : db.messages.filter (fun m => m.source_id = some sid) = db.messages :=
    List.filter_eq_self.mpr (fun m hm => by simp [hall m hm])
  rw [hfs]
  split
  · rw [filter_key_not_mem_take (fun m => m.timestamp) db.messages
      (db.messages.length - L) hnodup]
    split <;> rfl
  · rename_i hle
    have hz : db.messages.length - L = 0 := by omega
    rw [hz, List.drop_zero]

/-- One successfully decoded sentence of the scenario source advances
the retention invariant: the stored messages stay exactly the
`min k L` most recent. -/
theorem Backend.retention_step (sid : String) (L k : Nat) (db : DB) (d : Decoded)
    (v : Bool) (h : retention_inv sid L k db) :
    retention_inv sid L (k + 1) (process_ais_message (.ok d) v (some sid) db) := by
  obtain ⟨hnow, ⟨c, lm, hsrc⟩, hmsgs, hall⟩ := h
  have hpause : source_paused db (some sid) = false := by
    unfold source_paused
    dsimp only
    rw [hsrc, List.find?_cons_of_pos _ (by simp)]
    rfl
  have hfinal : process_ais_message (.ok d) v (some sid) db =
      bump_source_stats
        (if d.msg_type ∈ position_types then
          position_branch (ingest_phase d v (some sid) db) d.mmsi db.now d (some sid) v
        else ingest_phase d v (some sid) db) sid db.now := by
    unfold process_ais_message process_ais_message_body
    simp only [hpause, Bool.false_eq_true, if_false]
  -- the state after the envelope insert, before the purge
  set msg : Message :=
    { mmsi := d.mmsi, timestamp := db.now, message_type := d.msg_type,
      source_id := some sid, is_vdo := v,
      repeat_indicator := d.repeat_indicator } with hmsgdef
  set db1 : DB := { db with messages := db.messages ++ [msg], now := db.now + 1 }
    with hdb1def
  have hmid : ingest_phase d v (some sid) db = purge_messages db1 sid := rfl
  have hminle : min k L ≤ k := Nat.min_le_left k L
  have hmap1 : db1.messages.map (fun m => m.timestamp) =
      List.range' (k - min k L) (min k L + 1) := by
    show (db.messages ++ [msg]).map (fun m => m.timestamp) = _
    rw [List.map_append, hmsgs]
    have hts : [msg].map (fun m => m.timestamp) = [k] := by
      simp [hmsgdef, hnow]
    rw [hts, List.range'_concat]
    congr 2
    omega
  have hall1 : ∀ m ∈ db1.messages, m.source_id = some sid := by
    intro m hm
    rcases List.mem_append.mp hm with hm1 | hm2
    · exact hall m hm1
    · rw [List.mem_singleton.mp hm2]
  have hnodup1 : (db1.messages.map (fun m => m.timestamp)).Nodup := by
    rw [hmap1]
    exact List.nodup_range' _ _
  have hlen1 : db1.messages.length = min k L + 1 := by
    have := congrArg List.length hmap1
    simpa using this
  have hpurge := Backend.purge_all_sid sid L c lm db1 (by rw [hdb1def, hsrc])
    hall1 hnodup1
  have hmidmsgs : (ingest_phase d v (some sid) db).messages =
      db1.messages.drop (min k L + 1 - L) := by
    rw [hmid, hpurge, hlen1]
  -- the three frame components of the final state
  have hb_msgs : (process_ais_message (.ok d) v (some sid) db).messages =
      (ingest_phase d v (some sid) db).messages := by
    rw [hfinal, Backend.bump_source_stats_messages_eq]
    split
    · rw [Backend.position_branch_messages_eq]
    · rfl
  have hb_now : (process_ais_message (.ok d) v (some sid) db).now = k + 1 := by
    rw [hfinal]
    show (if d.msg_type ∈ position_types then _ else _ : DB).now = k + 1
    split
    · rw [Backend.position_branch_now_eq, Backend.ingest_phase_now_eq, hnow]
    · rw [Backend.ingest_phase_now_eq, hnow]
  have hb_sources : (process_ais_message (.ok d) v (some sid) db).sources =
      [{ source_id := sid, source_type := "file", message_limit := some L,
         message_count := c + 1, last_message := some k }] := by
    rw [hfinal]
    unfold bump_source_stats
    have hsrc3 : (if d.msg_type ∈ position_types then
        position_branch (ingest_phase d v (some sid) db) d.mmsi db.now d (some sid) v
      else ingest_phase d v (some sid) db).sources = db.sources := by
      split
      · rw [Backend.position_branch_sources_eq, hmid,
          Backend.purge_messages_sources_eq]
      · rw [hmid, Backend.purge_messages_sources_eq]
    rw [hsrc3, hsrc]
    simp [hnow]
  refine ⟨hb_now, ⟨c + 1, some k, hb_sources⟩, ?_, ?_⟩
  · rw [hb_msgs, hmidmsgs, List.map_drop, hmap1, drop_range']
    congr 1 <;> omega
  · intro m hm
    rw [hb_msgs, hmidmsgs] at hm
    exact hall1 m (List.drop_subset _ _ hm)

/-- Processing a list of successfully decoded sentences advances the
retention invariant by the length of the list. -/
theorem Backend.retention_run (sid : String) (L : Nat) :
    ∀ (inputs : List (Decoded × Bool)) (k : Nat) (db : DB),
      retention_inv sid L k db →
      retention_inv sid L (k + inputs.length)
        (run_ok_list sid inputs db) := by
  intro inputs
  induction inputs with
  | nil => intro k db h; simpa [run_ok_list] using h
  | cons i rest ih =>
    intro k db h
    have hstep := Backend.retention_step sid L k db i.1 i.2 h
    have hrest := ih (k + 1) _ hstep
    have hlen : k + 1 + rest.length = k + (rest.length + 1) := by omega
    rw [hlen] at hrest
    simpa [run_ok_list] using hrest

/-- The registration state satisfies the retention invariant at clock 0. -/
theorem Backend.retention_init (sid : String) (L : Nat) :
    retention_inv sid L 0 (retention_scenario_db sid L) := by
  refine ⟨rfl, ⟨0, none, rfl⟩, by simp [retention_scenario_db],
    by simp [retention_scenario_db]⟩

/-- Nat specialization of `filter_key_not_mem_take`. -/
theorem nat_filter_not_mem_take (l : List Nat) (j : Nat) (h : l.Nodup) :
    l.filter (fun x => x ∉ l.take j) = l.drop j := by
  have hgen := filter_key_not_mem_take (fun x => x) l j (by simpa using h)
  simpa using hgen

/-- The sqlite message table of one source after `n` successfully
decoded sentences under a positive limit `L`: exactly the
`min n (L - 1)` most recent rows remain (the purge triggers at
`count >= L` and deletes `count - L + 1` rows). -/
theorem Sqlite.process_n_eq (L : Nat) (hL : 0 < L) :
    ∀ n, Sqlite.process_n L n = (List.range n).drop (n - min n (L - 1)) := by
  intro n
  induction n with
  | zero => simp [Sqlite.process_n]
  | succ n ih =>
    have hstep : Sqlite.process_n L (n + 1) =
        Sqlite.insert_with_limit L (Sqlite.process_n L n) n := by
      unfold Sqlite.process_n
      rw [List.range_succ, List.foldl_concat]
    rw [hstep, ih]
    unfold Sqlite.insert_with_limit
    have hmn : min n (L - 1) ≤ n := Nat.min_le_left _ _
    have hms1 : (List.range n).drop (n - min n (L - 1)) ++ [n] =
        (List.range (n + 1)).drop (n - min n (L - 1)) := by
      rw [List.range_succ, List.drop_append_of_le_length (by simp)]
    rw [hms1]
    have hlen1 : ((List.range (n + 1)).drop (n - min n (L - 1))).length =
        min n (L - 1) + 1 := by
      simp
      omega
    have hnodup1 : ((List.range (n + 1)).drop (n - min n (L - 1))).Nodup :=
      List.Sublist.nodup (List.drop_sublist _ _) (List.nodup_range _)
    simp only [hL, if_true, hlen1]
    split
    · rename_i hge
      rw [nat_filter_not_mem_take _ _ hnodup1, List.drop_drop]
      congr 1
      omega
    · rename_i hlt
      congr 1
      omega

/-- C4, amended: starting from a freshly registered source, after
processing `n` successfully decoded sentences the primary backend keeps
exactly the `min n message_limit` most recent Messages of that source
(so exactly `message_limit` once `n` exceeds a positive limit), while
the sqlite backend keeps exactly the `min n (message_limit - 1)` most
recent — one fewer than the limit once it is reached — the oldest
excess Messages (and their associated Positions) being deleted. -/
theorem C4_retention_amended :
    (∀ (sid : String) (L : Nat) (inputs : List (Decoded × Bool)),
      ((run_ok_list sid inputs (retention_scenario_db sid L)).messages.filter
          (fun m => m.source_id = some sid)).map (fun m => m.timestamp) =
        List.range' (inputs.length - min inputs.length L) (min inputs.length L)) ∧
    (∀ L n : Nat, 0 < L →
      Sqlite.process_n L n = (List.range n).drop (n - min n (L - 1))) := by
  constructor
  · intro sid L inputs
    have hinv := Backend.retention_run sid L inputs 0 _
      (Backend.retention_init sid L)
    obtain ⟨-, -, hmsgs, hall⟩ := hinv
    have hfs : (run_ok_list sid inputs (retention_scenario_db sid L)).messages.filter
        (fun m => m.source_id = some sid) =
        (run_ok_list sid inputs (retention_scenario_db sid L)).messages :=
      List.filter_eq_self.mpr (fun m hm => by simp [hall m hm])
    rw [hfs]
    simpa using hmsgs
  · intro L n hL
    exact Sqlite.process_n_eq L hL n

/-- C4 witness: three sentences against limit 2 on the primary backend,
and the spec's 15-sentences-limit-10 scenario on the sqlite backend. -/
theorem C4_retention_witness :
    ((run_ok_list "s" c4_inputs (retention_scenario_db "s" 2)).messages.filter
        (fun m => m.source_id = some "s")).map (fun m => m.timestamp) =
      List.range' (c4_inputs.length - min c4_inputs.length 2)
        (min c4_inputs.length 2) ∧
    (0 < 10 ∧ Sqlite.process_n 10 15 = (List.range 15).drop (15 - min 15 9)) :=
  ⟨C4_retention_amended.1 "s" 2 c4_inputs,
   by decide, C4_retention_amended.2 10 15 (by decide)⟩

/-! ## Spoof-radius characterization -/

/-- The candidate loop computes the maximum of the filtered distance
list: folding the guarded max is folding `max` over the distances that
pass the guard and the spoof limit. -/
theorem Backend.spoof_loop_eq (alat alon : ℚ) (lim : ℝ) (l : List Position) :
    ∀ acc : ℝ,
      l.foldl (fun acc vdm_pos =>
        match fieldVal vdm_pos.display_lat, fieldVal vdm_pos.display_lon with
        | some vdm_lat, some vdm_lon =>
          if vdm_lat ≠ 0 ∧ vdm_lon ≠ 0 ∧ vdm_pos.repeat_indicator ≤ (0 : ℤ) then
            if haversine_km alat alon vdm_lat vdm_lon ≤ lim then
              max acc (haversine_km alat alon vdm_lat vdm_lon)
            else acc
          else acc
        | _, _ => acc) acc =
      ((l.filterMap (fun p =>
          match fieldVal p.display_lat, fieldVal p.display_lon with
          | some vlat, some vlon =>
            if vlat ≠ 0 ∧ vlon ≠ 0 ∧ p.repeat_indicator ≤ (0 : ℤ) then
              some (haversine_km alat alon vlat vlon)
            else none
          | _, _ => none)).filter (fun x => x ≤ lim)).foldl max acc := by
  induction l with
  | nil => intro acc; rfl
  | cons p t ih =>
    intro acc
    rw [List.foldl_cons, List.filterMap_cons]
    cases hla : fieldVal p.display_lat with
    | none =>
      simp only [hla]
      exact ih acc
    | some vlat =>
      cases hlo : fieldVal p.display_lon with
      | none =>
        simp only [hla, hlo]
        exact ih acc
      | some vlon =>
        simp only [hla, hlo]
        by_cases hguard : vlat ≠ 0 ∧ vlon ≠ 0 ∧ p.repeat_indicator ≤ (0 : ℤ)
        · rw [if_pos hguard, if_pos hguard]
          by_cases hlim : haversine_km alat alon vlat vlon ≤ lim
          · rw [if_pos hlim]
            rw [List.filter_cons_of_pos (by simpa using hlim), List.foldl_cons]
            exact ih (max acc (haversine_km alat alon vlat vlon))
          · rw [if_neg hlim]
            rw [List.filter_cons_of_neg (by simpa using hlim)]
            exact ih acc
        · rw [if_neg hguard, if_neg hguard]
          exact ih acc

/-- C8, amended: for every anchor fix of a source with non-null,
nonzero display coordinates, the reported spoof radius equals the
maximum haversine distance from the anchor to the source's candidate
positions (non-own-ship, `repeat_indicator ≤ 0`, non-null *and nonzero*
display coordinates — Python truthiness excludes a coordinate equal to
0) within `spoof_limit_km`, and `0` when no candidate qualifies;
anchors with a zero display coordinate are skipped entirely. -/
theorem C8_spoof_radius_amended (db : DB) (sid : String) (lim : ℝ)
    (anchor : Position) (alat alon : ℚ)
    (h1 : fieldVal anchor.display_lat = some alat)
    (h2 : fieldVal anchor.display_lon = some alon)
    (h3 : ¬(alat = 0 ∨ alon = 0)) :
    spoof_radius_for_anchor db sid lim anchor =
      some (amended_spoof_radius db sid lim alat alon) := by
  unfold spoof_radius_for_anchor
  rw [h1, h2]
  dsimp only
  rw [if_neg h3]
  unfold spoof_radius_loop amended_spoof_radius
  exact congrArg some (Backend.spoof_loop_eq alat alon lim _ 0)

/-- `6371 * (2 * arcsin u)` never exceeds `6371 * pi`, hence stays
below 30000 km. -/
theorem Backend.radius_scale_le (u : ℝ) : 6371 * (2 * Real.arcsin u) ≤ 30000 := by
  have h := Real.arcsin_le_pi_div_two u
  have hpi := Real.pi_le_four
  linarith

/-- The haversine distance is bounded by 30000 km (half the Earth's
circumference is about 20015 km). -/
theorem Backend.haversine_km_le_30000 (a b c d : ℚ) :
    haversine_km a b c d ≤ 30000 :=
  Backend.radius_scale_le _

/-- The haversine distance is nonnegative. -/
theorem Backend.haversine_km_nonneg (a b c d : ℚ) : 0 ≤ haversine_km a b c d := by
  have h := Real.arcsin_nonneg.mpr (Real.sqrt_nonneg
    (Real.sin (((c : ℝ) * Real.pi / 180 - (a : ℝ) * Real.pi / 180) / 2) ^ 2 +
      Real.cos ((a : ℝ) * Real.pi / 180) * Real.cos ((c : ℝ) * Real.pi / 180) *
        Real.sin (((d : ℝ) * Real.pi / 180 - (b : ℝ) * Real.pi / 180) / 2) ^ 2))
  show 0 ≤ 6371 * (2 * Real.arcsin _)
  linarith

/-- The haversine distance from (10, 10) to (10, 0) is strictly
positive. -/
theorem Backend.c8_haversine_pos : 0 < haversine_km 10 10 10 0 := by
  unfold haversine_km
  dsimp only
  norm_num
  have hc : 0 < Real.cos (10 * Real.pi / 180) := by
    apply Real.cos_pos_of_mem_Ioo
    constructor
    · nlinarith [Real.pi_pos]
    · nlinarith [Real.pi_pos]
  have hsin : 0 < Real.sin (10 * Real.pi / 180 / 2) := by
    apply Real.sin_pos_of_pos_of_lt_pi
    · nlinarith [Real.pi_pos]
    · nlinarith [Real.pi_pos]
  have hs : Real.sin (-(10 * Real.pi / 180) / 2) ≠ 0 := by
    rw [neg_div, Real.sin_neg]
    exact neg_ne_zero.mpr (ne_of_gt hsin)
  have hsq : 0 < Real.sin (-(10 * Real.pi / 180) / 2) ^ 2 :=
    pow_two_pos_of_ne_zero hs
  exact mul_pos (mul_pos hc hc) hsq

/-- The candidate query keeps only the received target in the C8
fixture. -/
theorem Backend.c8_filter_eq :
    c8_db.positions.filter (vdm_query "s") = [c8_candidate] := by
  decide

/-- C8, counterexample: in the fixture, the VDO anchor at (10, 10) has
one qualifying candidate per the claim (non-own-ship, direct, non-null
display, within the 30000 km spoof limit) displayed at (10, 0), so the
claim's radius is the strictly positive distance to it; but the code
reports radius 0: the in-loop truthiness guard discards the candidate
because its display longitude is the (falsy) number 0. -/
theorem C8_zero_coordinate_counterexample :
    spoof_radius_for_anchor c8_db "s" 30000 c8_anchor = some 0 ∧
    0 < claim_spoof_radius c8_db "s" 30000 10 10 := by
  constructor
  · unfold spoof_radius_for_anchor
    have h1 : fieldVal c8_anchor.display_lat = some 10 := rfl
    have h2 : fieldVal c8_anchor.display_lon = some 10 := rfl
    rw [h1, h2]
    dsimp only
    rw [if_neg (by norm_num)]
    rw [Backend.c8_filter_eq]
    unfold spoof_radius_loop
    rw [List.foldl_cons, List.foldl_nil]
    have h3 : fieldVal c8_candidate.display_lat = some 10 := rfl
    have h4 : fieldVal c8_candidate.display_lon = some 0 := rfl
    rw [h3, h4]
    dsimp only
    rw [if_neg (by norm_num)]
  · unfold claim_spoof_radius
    rw [Backend.c8_filter_eq]
    rw [List.filterMap_cons]
    have h3 : fieldVal c8_candidate.display_lat = some 10 := rfl
    have h4 : fieldVal c8_candidate.display_lon = some 0 := rfl
    rw [h3, h4]
    dsimp only
    rw [List.filterMap_nil]
    rw [List.filter_cons_of_pos (by
      simpa using Backend.haversine_km_le_30000 10 10 10 0)]
    rw [List.filter_nil, List.foldl_cons, List.foldl_nil]
    have hpos := Backend.c8_haversine_pos
    exact lt_max_iff.mpr (Or.inr hpos)

/-- C8 witness for the amended theorem: the fixture anchor has non-null
nonzero display coordinates and the code's radius equals the amended
maximum. -/
theorem C8_spoof_radius_witness :
    (fieldVal c8_anchor.display_lat = some 10 ∧
      fieldVal c8_anchor.display_lon = some 10 ∧
      ¬((10 : ℚ) = 0 ∨ (10 : ℚ) = 0)) ∧
    spoof_radius_for_anchor c8_db "s" 30000 c8_anchor =
      some (amended_spoof_radius c8_db "s" 30000 10 10) :=
  ⟨⟨rfl, rfl, by norm_num⟩,
    C8_spoof_radius_amended c8_db "s" 30000 c8_anchor 10 10 rfl rfl (by norm_num)⟩
